import Mathlib

/-!
Verification of the ZyraZoo battle/economy engine (`src/main.py`).

The Python source is shallowly embedded: floats become `ℚ`, machine
integers become `ℤ`/`ℕ`, dictionaries keyed by `"slot1".."slot3"` become
the three-field structure `Trip`, and the `random.*` draws become explicit
choice parameters whose admissible values are captured by support
predicates taken from the samplers' code.
-/

/-- Mutation tiers (`MUTATION_ORDER` in the source). -/
inductive Mutation
  | none
  | golden
  | diamond
  | emerald
  | rainbow
deriving DecidableEq

/-- The three team roles (`ROLE_EMOJI` keys). -/
inductive Role
  | TANK
  | ATTACK
  | SUPPORT
deriving DecidableEq

/-- `Animal` dataclass (fields relevant to the engine). -/
structure Animal where
  animal_id : String
  rarity_index : ℕ
  role : Role
  hp : ℤ
  atk : ℤ
  defense : ℤ
deriving DecidableEq

/-- `Food` dataclass (fields relevant to the engine). -/
structure Food where
  food_id : String
  rarity_index : ℕ
  hp_bonus : ℤ
  atk_bonus : ℤ
  def_bonus : ℤ
deriving DecidableEq

/-- A `{"slot1": _, "slot2": _, "slot3": _}` dictionary. -/
structure Trip (α : Type) where
  s1 : α
  s2 : α
  s3 : α
deriving DecidableEq

/-- The three slot keys, in iteration order `slot1, slot2, slot3`. -/
inductive Slot
  | s1
  | s2
  | s3
deriving DecidableEq

def Trip.get {α : Type} (t : Trip α) : Slot → α
  | Slot.s1 => t.s1
  | Slot.s2 => t.s2
  | Slot.s3 => t.s3

def Trip.set {α : Type} (t : Trip α) : Slot → α → Trip α
  | Slot.s1, v => ⟨v, t.s2, t.s3⟩
  | Slot.s2, v => ⟨t.s1, v, t.s3⟩
  | Slot.s3, v => ⟨t.s1, t.s2, v⟩

/-- `MUTATION_META[...]["ability_multiplier"]` as read by
`mutation_multiplier_value`. -/
def mutation_multiplier_value : Mutation → ℚ
  | Mutation.none => 1
  | Mutation.golden => 5/4
  | Mutation.diamond => 3/2
  | Mutation.emerald => 2
  | Mutation.rainbow => 5

/-- `power(animal) = hp*1.0 + atk*1.5 + defense*1.2`. -/
def power (a : Animal) : ℚ :=
  (a.hp : ℚ) * 1 + (a.atk : ℚ) * (3/2) + (a.defense : ℚ) * (6/5)

/-- `food_power(food)`: the same weighted sum over the bonuses, `0.0`
when no food is given. -/
def food_power : Option Food → ℚ
  | Option.none => 0
  | Option.some f => (f.hp_bonus : ℚ) * 1 + (f.atk_bonus : ℚ) * (3/2) + (f.def_bonus : ℚ) * (6/5)

/-- `effective_power(animal, food, mutation_multiplier)`. -/
def effective_power (a : Animal) (f : Option Food) (m : ℚ) : ℚ :=
  (power a + food_power f) * m

/-- `calculate_team_power`: sum of `effective_power` over the three slots. -/
def calculate_team_power (animals : Trip Animal) (foods : Trip (Option Food))
    (muts : Trip Mutation) : ℚ :=
  effective_power animals.s1 foods.s1 (mutation_multiplier_value muts.s1)
    + effective_power animals.s2 foods.s2 (mutation_multiplier_value muts.s2)
    + effective_power animals.s3 foods.s3 (mutation_multiplier_value muts.s3)

/-- `mutation_stage` (local function of the `battle` command). -/
def mutation_stage : Mutation → ℕ
  | Mutation.none => 0
  | Mutation.golden => 0
  | Mutation.diamond => 1
  | Mutation.emerald => 2
  | Mutation.rainbow => 3

/-- `food_count = sum(1 for food in player_foods.values() if food)`. -/
def food_count (foods : Trip (Option Food)) : ℕ :=
  (if foods.s1.isSome then 1 else 0) + (if foods.s2.isSome then 1 else 0)
    + (if foods.s3.isSome then 1 else 0)

/-- `mutated_count`: slots whose mutation is not `"none"`. -/
def mutated_count (muts : Trip Mutation) : ℕ :=
  (if muts.s1 = Mutation.none then 0 else 1) + (if muts.s2 = Mutation.none then 0 else 1)
    + (if muts.s3 = Mutation.none then 0 else 1)

/-- `highest_stage`: max of `mutation_stage` over the slots. -/
def highest_stage (muts : Trip Mutation) : ℕ :=
  max (max (mutation_stage muts.s1) (mutation_stage muts.s2)) (mutation_stage muts.s3)

/-- `base_range()` (local function of the `battle` command). -/
def base_range (mc fc : ℕ) : ℚ × ℚ :=
  if mc = 0 then
    if fc = 0 then (80, 150)
    else if fc = 1 then (80, 145)
    else (80, 140)
  else if mc = 3 then
    if fc = 0 then (75, 130) else (70, 130)
  else if fc = 0 then (75, 135)
  else (70, 135)

/-- The absolute difficulty window `(target_min, target_max)` computed by
the `battle` command from the requester's power and composition. -/
def battle_target_bounds (playerPower : ℚ) (muts : Trip Mutation)
    (foods : Trip (Option Food)) : ℚ × ℚ :=
  let br := base_range (mutated_count muts) (food_count foods)
  let buff : ℚ := 5 * (highest_stage muts : ℚ)
  let minPct := max 0 (br.1 - buff / 2)
  let maxPct := max 0 (br.2 + buff / 2)
  (playerPower * (minPct / 100), playerPower * (maxPct / 100))

/-- The base-percentage table exactly as written in the spec's difficulty
window claim: rows keyed on mutated-slot count 0 / 1–2 / 3, columns on
equipped-item count 0 / 1 / ≥2 (junk value outside the table's domain). -/
def claim_window_table (mutated items : ℕ) : ℚ × ℚ :=
  if mutated = 0 then
    if items = 0 then (80, 150) else if items = 1 then (80, 145) else (80, 140)
  else if 1 ≤ mutated ∧ mutated ≤ 2 then
    if items = 0 then (75, 135) else if items = 1 then (70, 135) else (70, 135)
  else if mutated = 3 then
    if items = 0 then (75, 130) else if items = 1 then (70, 130) else (70, 130)
  else (0, 0)

lemma mutated_count_le_three (muts : Trip Mutation) : mutated_count muts ≤ 3 := by
  unfold mutated_count
  split_ifs <;> norm_num

lemma base_range_eq_claim_table (mc fc : ℕ) (h : mc ≤ 3) :
    base_range mc fc = claim_window_table mc fc := by
  interval_cases mc <;>
    · by_cases h0 : fc = 0 <;> by_cases h1 : fc = 1 <;>
        simp [base_range, claim_window_table, h0, h1]

/-- `roll_fusion_result`, with the roll explicit (`random.random() * 100`
in the source) and the rainbow `ValueError` embedded as `none`. -/
def roll_fusion_result (m : Mutation) (roll : ℚ) : Option (Mutation × ℕ) :=
  match m with
  | Mutation.none =>
    if roll < 50 then some (Mutation.golden, 1)
    else if roll < 75 then some (Mutation.diamond, 1)
    else if roll < 95 then some (Mutation.emerald, 1)
    else some (Mutation.rainbow, 1)
  | Mutation.golden =>
    if roll < 50 then some (Mutation.diamond, 1)
    else if roll < 90 then some (Mutation.emerald, 1)
    else some (Mutation.rainbow, 1)
  | Mutation.diamond =>
    if roll < 75 then some (Mutation.emerald, 1)
    else some (Mutation.rainbow, 1)
  | Mutation.emerald =>
    if roll < 50 then some (Mutation.emerald, 3)
    else some (Mutation.rainbow, 1)
  | Mutation.rainbow => none

/-- C1: the unit's power is `hp·1.0 + atk·1.5 + defense·1.2`; the item's
power is the same weighted sum over its bonuses (0 with no item); a slot's
effective power is `(unit power + item power) · mutation multiplier` with
multipliers 1.0 / 1.25 / 1.5 / 2.0 / 5.0 for none / golden / diamond /
emerald / rainbow; and team power is exactly the sum of effective power
over the 3 slots. -/
theorem power_model_spec (a : Animal) (f : Food) (of : Option Food) (q : ℚ)
    (animals : Trip Animal) (foods : Trip (Option Food)) (muts : Trip Mutation) :
    power a = (a.hp : ℚ) * 1 + (a.atk : ℚ) * (3/2) + (a.defense : ℚ) * (6/5)
      ∧ food_power Option.none = 0
      ∧ food_power (some f)
          = (f.hp_bonus : ℚ) * 1 + (f.atk_bonus : ℚ) * (3/2) + (f.def_bonus : ℚ) * (6/5)
      ∧ effective_power a of q = (power a + food_power of) * q
      ∧ mutation_multiplier_value Mutation.none = 1
      ∧ mutation_multiplier_value Mutation.golden = 5/4
      ∧ mutation_multiplier_value Mutation.diamond = 3/2
      ∧ mutation_multiplier_value Mutation.emerald = 2
      ∧ mutation_multiplier_value Mutation.rainbow = 5
      ∧ calculate_team_power animals foods muts
          = effective_power animals.s1 foods.s1 (mutation_multiplier_value muts.s1)
            + effective_power animals.s2 foods.s2 (mutation_multiplier_value muts.s2)
            + effective_power animals.s3 foods.s3 (mutation_multiplier_value muts.s3) := by
  refine ⟨rfl, rfl, rfl, rfl, rfl, rfl, rfl, rfl, rfl, rfl⟩

/-- C2: the base percentage interval is selected by
(mutated-slot count, equipped-item count) per the spec's table, widened by
±2.5 % per highest mutation stage (0 none/golden, 1 diamond, 2 emerald,
3 rainbow), both percentage bounds floored at 0, and the absolute bounds
are the requester's power times the two percentages. -/
theorem difficulty_window_spec (p : ℚ) (muts : Trip Mutation) (foods : Trip (Option Food)) :
    battle_target_bounds p muts foods
      = (p * (max 0 ((claim_window_table (mutated_count muts) (food_count foods)).1
              - 5/2 * (highest_stage muts : ℚ)) / 100),
         p * (max 0 ((claim_window_table (mutated_count muts) (food_count foods)).2
              + 5/2 * (highest_stage muts : ℚ)) / 100))
      ∧ mutation_stage Mutation.none = 0 ∧ mutation_stage Mutation.golden = 0
      ∧ mutation_stage Mutation.diamond = 1 ∧ mutation_stage Mutation.emerald = 2
      ∧ mutation_stage Mutation.rainbow = 3 := by
  refine ⟨?_, rfl, rfl, rfl, rfl, rfl⟩
  unfold battle_target_bounds
  rw [base_range_eq_claim_table _ _ (mutated_count_le_three muts)]
  have h1 : (claim_window_table (mutated_count muts) (food_count foods)).1
      - 5 * (highest_stage muts : ℚ) / 2
      = (claim_window_table (mutated_count muts) (food_count foods)).1
        - 5/2 * (highest_stage muts : ℚ) := by ring
  have h2 : (claim_window_table (mutated_count muts) (food_count foods)).2
      + 5 * (highest_stage muts : ℚ) / 2
      = (claim_window_table (mutated_count muts) (food_count foods)).2
        + 5/2 * (highest_stage muts : ℚ) := by ring
  dsimp only
  rw [h1, h2]

/-- C3: the fusion roll table — from none: golden below 50, diamond on
[50,75), emerald on [75,95), else rainbow; from golden: diamond below 50,
emerald on [50,90), else rainbow; from diamond: emerald below 75, else
rainbow; from emerald: 3× emerald below 50, else 1× rainbow; fusing
rainbow is rejected; and the forced rolls 40 and 60 from none yield one
golden and one diamond respectively. -/
theorem fusion_roll_spec (r : ℚ) (h0 : 0 ≤ r) (h1 : r < 100) :
    (r < 50 → roll_fusion_result Mutation.none r = some (Mutation.golden, 1))
      ∧ (50 ≤ r → r < 75 → roll_fusion_result Mutation.none r = some (Mutation.diamond, 1))
      ∧ (75 ≤ r → r < 95 → roll_fusion_result Mutation.none r = some (Mutation.emerald, 1))
      ∧ (95 ≤ r → roll_fusion_result Mutation.none r = some (Mutation.rainbow, 1))
      ∧ (r < 50 → roll_fusion_result Mutation.golden r = some (Mutation.diamond, 1))
      ∧ (50 ≤ r → r < 90 → roll_fusion_result Mutation.golden r = some (Mutation.emerald, 1))
      ∧ (90 ≤ r → roll_fusion_result Mutation.golden r = some (Mutation.rainbow, 1))
      ∧ (r < 75 → roll_fusion_result Mutation.diamond r = some (Mutation.emerald, 1))
      ∧ (75 ≤ r → roll_fusion_result Mutation.diamond r = some (Mutation.rainbow, 1))
      ∧ (r < 50 → roll_fusion_result Mutation.emerald r = some (Mutation.emerald, 3))
      ∧ (50 ≤ r → roll_fusion_result Mutation.emerald r = some (Mutation.rainbow, 1))
      ∧ roll_fusion_result Mutation.rainbow r = none
      ∧ roll_fusion_result Mutation.none 40 = some (Mutation.golden, 1)
      ∧ roll_fusion_result Mutation.none 60 = some (Mutation.diamond, 1) := by
  refine ⟨fun h => ?_, fun h h' => ?_, fun h h' => ?_, fun h => ?_, fun h => ?_,
    fun h h' => ?_, fun h => ?_, fun h => ?_, fun h => ?_, fun h => ?_, fun h => ?_,
    rfl, by norm_num [roll_fusion_result], by norm_num [roll_fusion_result]⟩ <;>
    · simp only [roll_fusion_result]
      split_ifs <;> first | rfl | linarith

/-- Witness for `fusion_roll_spec` at the forced roll 40. -/
theorem fusion_roll_spec_witness :
    (0 : ℚ) ≤ 40 ∧ (40 : ℚ) < 100
      ∧ roll_fusion_result Mutation.none 40 = some (Mutation.golden, 1) :=
  ⟨by norm_num, by norm_num,
    (fusion_roll_spec 40 (by norm_num) (by norm_num)).1 (by norm_num)⟩

/-- A per-animal mutation bucket, the normalized `zoo[animal_id]` dict
(`{"none": n, "golden": n, ...}`, every count clamped to `≥ 0`). -/
structure MutCounts where
  noneCt : ℕ
  goldenCt : ℕ
  diamondCt : ℕ
  emeraldCt : ℕ
  rainbowCt : ℕ
deriving DecidableEq

def MutCounts.get (b : MutCounts) : Mutation → ℕ
  | Mutation.none => b.noneCt
  | Mutation.golden => b.goldenCt
  | Mutation.diamond => b.diamondCt
  | Mutation.emerald => b.emeraldCt
  | Mutation.rainbow => b.rainbowCt

def MutCounts.set (b : MutCounts) : Mutation → ℕ → MutCounts
  | Mutation.none, v => ⟨v, b.goldenCt, b.diamondCt, b.emeraldCt, b.rainbowCt⟩
  | Mutation.golden, v => ⟨b.noneCt, v, b.diamondCt, b.emeraldCt, b.rainbowCt⟩
  | Mutation.diamond, v => ⟨b.noneCt, b.goldenCt, v, b.emeraldCt, b.rainbowCt⟩
  | Mutation.emerald, v => ⟨b.noneCt, b.goldenCt, b.diamondCt, v, b.rainbowCt⟩
  | Mutation.rainbow, v => ⟨b.noneCt, b.goldenCt, b.diamondCt, b.emeraldCt, v⟩

lemma MutCounts.get_set_same (b : MutCounts) (m : Mutation) (v : ℕ) :
    (b.set m v).get m = v := by
  cases m <;> rfl

/-- The slice of a stored profile that a `/fuse` call reads and writes:
the fused animal's mutation bucket and the profile's team (each slot
optionally holding an `animal_id` and a mutation, as in `reserved_count`). -/
structure FuseProfile where
  zoo : MutCounts
  team : Trip (Option (String × Mutation))
deriving DecidableEq

/-- `get_owned_count` for the fused animal. -/
def get_owned_count (p : FuseProfile) (m : Mutation) : ℕ :=
  p.zoo.get m

/-- `reserved_count`: team slots holding this exact animal and mutation. -/
def reserved_count (team : Trip (Option (String × Mutation))) (aid : String)
    (m : Mutation) : ℕ :=
  (if team.s1 = some (aid, m) then 1 else 0)
    + (if team.s2 = some (aid, m) then 1 else 0)
    + (if team.s3 = some (aid, m) then 1 else 0)

/-- `sellable_amount = max(0, owned - reserved)` (truncated subtraction). -/
def sellable_amount (p : FuseProfile) (aid : String) (m : Mutation) : ℕ :=
  get_owned_count p m - reserved_count p.team aid m

/-- `remove_animal`: removes `min(owned, qty)` and reports how many were
actually removed. -/
def remove_animal (b : MutCounts) (m : Mutation) (qty : ℕ) : MutCounts × ℕ :=
  let owned := b.get m
  let removed := min owned qty
  (b.set m (owned - removed), removed)

/-- `add_animal`: credits `qty` units of the given mutation. -/
def add_animal (b : MutCounts) (m : Mutation) (qty : ℕ) : MutCounts :=
  b.set m (b.get m + qty)

/-- The `/fuse` command, with the roll explicit. `none` is a refusal: the
command replies with an error before `store.save_profile`, so the stored
profile is unchanged. -/
def fuse (p : FuseProfile) (aid : String) (m : Mutation) (roll : ℚ) : Option FuseProfile :=
  if m = Mutation.rainbow then none
  else if sellable_amount p aid m < 4 then none
  else
    let rr := remove_animal p.zoo m 4
    if rr.2 < 4 then none
    else
      match roll_fusion_result m roll with
      | Option.none => none
      | Option.some (rm, q) => some ⟨add_animal rr.1 rm q, p.team⟩

/-- The stored profile after a `/fuse` call (unchanged on refusal). -/
def fuse_persisted (p : FuseProfile) (aid : String) (m : Mutation) (roll : ℚ) : FuseProfile :=
  (fuse p aid m roll).getD p

/-- Position of a mutation in the ordered tier list `MUTATION_ORDER`. -/
def mutation_tier_index : Mutation → ℕ
  | Mutation.none => 0
  | Mutation.golden => 1
  | Mutation.diamond => 2
  | Mutation.emerald => 3
  | Mutation.rainbow => 4

lemma roll_fusion_result_exists (m : Mutation) (r : ℚ) (hm : m ≠ Mutation.rainbow) :
    ∃ rm q, roll_fusion_result m r = some (rm, q)
      ∧ mutation_tier_index m ≤ mutation_tier_index rm
      ∧ (rm = m → m = Mutation.emerald ∧ q = 3)
      ∧ 1 ≤ q := by
  cases m
  case rainbow => exact absurd rfl hm
  all_goals
    simp only [roll_fusion_result]
    split_ifs <;> exact ⟨_, _, rfl, by decide, by decide, by decide⟩

/-- C4: a fuse either finds at least 4 sellable units of the requested
tier, consumes exactly 4 (the source tier's owned count drops by exactly
4 before the rolled output is credited), or is refused with the stored
profile unchanged; a successful fuse always credits at least one unit,
the output tier never regresses below the input tier, and it equals the
input tier only in the emerald → 3× emerald branch. -/
theorem fuse_atomic_spec (p : FuseProfile) (aid : String) (m : Mutation) (r : ℚ) :
    (m = Mutation.rainbow ∨ sellable_amount p aid m < 4 →
        fuse p aid m r = none ∧ fuse_persisted p aid m r = p)
    ∧ (m ≠ Mutation.rainbow → 4 ≤ sellable_amount p aid m →
        ∃ rm q, roll_fusion_result m r = some (rm, q)
          ∧ fuse p aid m r = some ⟨add_animal (p.zoo.set m (p.zoo.get m - 4)) rm q, p.team⟩
          ∧ (p.zoo.set m (p.zoo.get m - 4)).get m + 4 = p.zoo.get m
          ∧ 1 ≤ q
          ∧ mutation_tier_index m ≤ mutation_tier_index rm
          ∧ (rm = m → m = Mutation.emerald ∧ q = 3)) := by
  constructor
  · intro h
    have hnone : fuse p aid m r = none := by
      unfold fuse
      rcases h with hm | hs
      · rw [if_pos hm]
      · by_cases hm : m = Mutation.rainbow
        · rw [if_pos hm]
        · rw [if_neg hm, if_pos hs]
    exact ⟨hnone, by rw [fuse_persisted, hnone]; rfl⟩
  · intro hm hs
    obtain ⟨rm, q, hroll, hup, hstay, hq⟩ := roll_fusion_result_exists m r hm
    have howned : 4 ≤ p.zoo.get m := by
      have hle : sellable_amount p aid m ≤ p.zoo.get m := Nat.sub_le _ _
      omega
    refine ⟨rm, q, hroll, ?_, ?_, hq, hup, hstay⟩
    · unfold fuse remove_animal
      rw [if_neg hm, if_neg (by omega : ¬ sellable_amount p aid m < 4)]
      have hmin : min (p.zoo.get m) 4 = 4 := Nat.min_eq_right howned
      simp only [hmin, hroll]
      rw [if_neg (by omega : ¬ (4 : ℕ) < 4)]
    · rw [MutCounts.get_set_same]
      omega

/-- Concrete profile used by the fusion witnesses: 5 mutation-free pigs
owned, one of them reserved on the team. -/
def witnessProfile : FuseProfile :=
  ⟨⟨5, 0, 0, 0, 0⟩, ⟨some ("pig", Mutation.none), Option.none, Option.none⟩⟩

/-- Witness for `fuse_atomic_spec`: fusing 4 of 5 owned mutation-free
pigs (one reserved) with roll 40 succeeds. -/
theorem fuse_atomic_spec_witness :
    Mutation.none ≠ Mutation.rainbow
      ∧ 4 ≤ sellable_amount witnessProfile "pig" Mutation.none
      ∧ ∃ rm q, roll_fusion_result Mutation.none 40 = some (rm, q)
          ∧ fuse witnessProfile "pig" Mutation.none 40
              = some ⟨add_animal (witnessProfile.zoo.set Mutation.none
                  (witnessProfile.zoo.get Mutation.none - 4)) rm q, witnessProfile.team⟩
          ∧ (witnessProfile.zoo.set Mutation.none
              (witnessProfile.zoo.get Mutation.none - 4)).get Mutation.none + 4
              = witnessProfile.zoo.get Mutation.none
          ∧ 1 ≤ q
          ∧ mutation_tier_index Mutation.none ≤ mutation_tier_index rm
          ∧ (rm = Mutation.none → Mutation.none = Mutation.emerald ∧ q = 3) :=
  ⟨by decide, by decide,
    (fuse_atomic_spec witnessProfile "pig" Mutation.none 40).2 (by decide) (by decide)⟩

/-- C10: the fusion precondition counts only units not reserved on the
team — if at least 4 units of the animal-and-tier are owned but owned
minus the team-reserved count is below 4, the fuse is refused and the
stored profile is unchanged. -/
theorem fuse_reserved_refusal (p : FuseProfile) (aid : String) (m : Mutation) (r : ℚ)
    (h4 : 4 ≤ get_owned_count p m)
    (hres : get_owned_count p m - reserved_count p.team aid m < 4) :
    fuse p aid m r = none ∧ fuse_persisted p aid m r = p := by
  have hs : sellable_amount p aid m < 4 := hres
  have hnone : fuse p aid m r = none := by
    unfold fuse
    by_cases hm : m = Mutation.rainbow
    · rw [if_pos hm]
    · rw [if_neg hm, if_pos hs]
  exact ⟨hnone, by rw [fuse_persisted, hnone]; rfl⟩

/-- Concrete profile for the `fuse_reserved_refusal` witness: 4 owned,
2 reserved on the team. -/
def witnessProfileReserved : FuseProfile :=
  ⟨⟨4, 0, 0, 0, 0⟩, ⟨some ("pig", Mutation.none), some ("pig", Mutation.none), Option.none⟩⟩

/-- Witness for `fuse_reserved_refusal`: 4 pigs owned but 2 reserved on
the team, so the fuse is refused. -/
theorem fuse_reserved_refusal_witness :
    4 ≤ get_owned_count witnessProfileReserved Mutation.none
      ∧ get_owned_count witnessProfileReserved Mutation.none
          - reserved_count witnessProfileReserved.team "pig" Mutation.none < 4
      ∧ fuse witnessProfileReserved "pig" Mutation.none 40 = none
      ∧ fuse_persisted witnessProfileReserved "pig" Mutation.none 40 = witnessProfileReserved :=
  ⟨by decide, by decide,
    fuse_reserved_refusal witnessProfileReserved "pig" Mutation.none 40 (by decide) (by decide)⟩

/-- `apply_food`: derived combat stats `(hp, atk, defense)` of a unit with
its equipped item's flat bonuses. -/
def apply_food (a : Animal) (f : Option Food) : ℤ × ℤ × ℤ :=
  match f with
  | Option.none => (a.hp, a.atk, a.defense)
  | Option.some fd => (a.hp + fd.hp_bonus, a.atk + fd.atk_bonus, a.defense + fd.def_bonus)

/-- `first_alive`: the first slot (in `slot1, slot2, slot3` order) with
health above zero. -/
def first_alive (hp : Trip ℤ) : Option Slot :=
  if hp.s1 > 0 then some Slot.s1
  else if hp.s2 > 0 then some Slot.s2
  else if hp.s3 > 0 then some Slot.s3
  else Option.none

/-- `def_value` inside `attack_phase`: summed defense of all
currently-living defending slots. -/
def living_defense (dHp : Trip ℤ) (dSt : Trip (ℤ × ℤ × ℤ)) : ℤ :=
  (if dHp.s1 > 0 then dSt.s1.2.2 else 0) + (if dHp.s2 > 0 then dSt.s2.2.2 else 0)
    + (if dHp.s3 > 0 then dSt.s3.2.2 else 0)

/-- The `for i in range(1, 4)` loop of `attack_phase`, with `continue` on
a downed attacker and `break` when no defender is left alive. -/
def attack_loop (aHp : Trip ℤ) (aSt : Trip (ℤ × ℤ × ℤ)) (dSt : Trip (ℤ × ℤ × ℤ)) :
    List Slot → Trip ℤ → Trip ℤ
  | [], dHp => dHp
  | i :: rest, dHp =>
    if aHp.get i ≤ 0 then attack_loop aHp aSt dSt rest dHp
    else
      match first_alive dHp with
      | Option.none => dHp
      | Option.some t =>
        let dv := living_defense dHp dSt
        let dmg := max 1 ((aSt.get i).2.1 - dv)
        attack_loop aHp aSt dSt rest (dHp.set t (max 0 (dHp.get t - dmg)))

/-- `attack_phase(attacker_hp, attacker_stats, defender_hp, defender_stats)`:
returns the updated defender health map. -/
def attack_phase (aHp : Trip ℤ) (aSt : Trip (ℤ × ℤ × ℤ)) (dHp : Trip ℤ)
    (dSt : Trip (ℤ × ℤ × ℤ)) : Trip ℤ :=
  attack_loop aHp aSt dSt [Slot.s1, Slot.s2, Slot.s3] dHp

/-- One acting slot exactly as the combat claim words it: an attacker with
health > 0 targets the defender's first living slot, deals
`max(1, attack − sum of living defenders' defense)`, and only the targeted
slot's health changes, floored at 0. -/
def claim_strike (aHp : Trip ℤ) (aSt : Trip (ℤ × ℤ × ℤ)) (i : Slot) (dHp : Trip ℤ)
    (dSt : Trip (ℤ × ℤ × ℤ)) : Trip ℤ :=
  if 0 < aHp.get i then
    match first_alive dHp with
    | Option.some t =>
      dHp.set t (max 0 (dHp.get t - max 1 ((aSt.get i).2.1 - living_defense dHp dSt)))
    | Option.none => dHp
  else dHp

/-- The attacking pass as the claim describes it: the three slots act in
the fixed order slot1, slot2, slot3. -/
def attack_phase_claim (aHp : Trip ℤ) (aSt : Trip (ℤ × ℤ × ℤ)) (dHp : Trip ℤ)
    (dSt : Trip (ℤ × ℤ × ℤ)) : Trip ℤ :=
  claim_strike aHp aSt Slot.s3
    (claim_strike aHp aSt Slot.s2 (claim_strike aHp aSt Slot.s1 dHp dSt) dSt) dSt

lemma attack_loop_no_target (aHp : Trip ℤ) (aSt dSt : Trip (ℤ × ℤ × ℤ)) (l : List Slot)
    (dHp : Trip ℤ) (h : first_alive dHp = Option.none) :
    attack_loop aHp aSt dSt l dHp = dHp := by
  induction l with
  | nil => rfl
  | cons i rest ih =>
    simp only [attack_loop, h]
    split_ifs with hi
    · exact ih
    · rfl

lemma attack_loop_cons (aHp : Trip ℤ) (aSt dSt : Trip (ℤ × ℤ × ℤ)) (i : Slot)
    (rest : List Slot) (dHp : Trip ℤ) :
    attack_loop aHp aSt dSt (i :: rest) dHp
      = attack_loop aHp aSt dSt rest (claim_strike aHp aSt i dHp dSt) := by
  by_cases hi : aHp.get i ≤ 0
  · simp only [attack_loop, if_pos hi, claim_strike, if_neg (by omega : ¬ 0 < aHp.get i)]
  · cases hfa : first_alive dHp with
    | none =>
      simp only [attack_loop, if_neg hi, hfa, claim_strike,
        if_pos (by omega : 0 < aHp.get i)]
      exact (attack_loop_no_target aHp aSt dSt rest dHp hfa).symm
    | some t =>
      simp only [attack_loop, if_neg hi, hfa, claim_strike,
        if_pos (by omega : 0 < aHp.get i)]

/-- C5: in every combat round the attacking side's slots act in the fixed
order slot1, slot2, slot3; each acting slot with health > 0 targets the
defending side's first living slot; the damage dealt is
`max(1, attacker's attack − summed defense of living defenders)`; and the
damage is subtracted only from the targeted slot's health, floored at 0
(the right-hand side applies exactly that per-slot rule three times in
slot order). -/
theorem combat_round_spec (aHp : Trip ℤ) (aSt : Trip (ℤ × ℤ × ℤ)) (dHp : Trip ℤ)
    (dSt : Trip (ℤ × ℤ × ℤ)) :
    attack_phase aHp aSt dHp dSt = attack_phase_claim aHp aSt dHp dSt := by
  unfold attack_phase attack_phase_claim
  rw [attack_loop_cons, attack_loop_cons, attack_loop_cons]
  rfl

/-- The round loop of the `battle` command: up to 100 rounds, the player's
side attacks first, the enemy answers in the same round only if still
alive. Structural fuel replaces the `rounds < 100` guard's progress
argument; called with fuel 100 and `rounds = 0` it never runs out before
the guard fails. Returns the final health maps and the round count. -/
def battle_loop (pSt eSt : Trip (ℤ × ℤ × ℤ)) :
    ℕ → Trip ℤ → Trip ℤ → ℕ → Trip ℤ × Trip ℤ × ℕ
  | 0, pHp, eHp, rounds => (pHp, eHp, rounds)
  | fuel + 1, pHp, eHp, rounds =>
    if (first_alive pHp).isSome = true ∧ (first_alive eHp).isSome = true ∧ rounds < 100 then
      let eHp' := attack_phase pHp pSt eHp eSt
      if (first_alive eHp').isSome = true then
        battle_loop pSt eSt fuel (attack_phase eHp' eSt pHp pSt) eHp' (rounds + 1)
      else (pHp, eHp', rounds + 1)
    else (pHp, eHp, rounds)

/-- `sum(max(0, hp) for hp in hp_map.values())`. -/
def hp_total (hp : Trip ℤ) : ℤ :=
  max 0 hp.s1 + max 0 hp.s2 + max 0 hp.s3

/-- The win flag computed by the `battle` command after the round loop:
on a reached round cap with both sides alive the player wins iff their
remaining health total is strictly greater, otherwise the player wins iff
they are alive and the enemy is not. -/
def battle_outcome (pSt eSt : Trip (ℤ × ℤ × ℤ)) (pHp0 eHp0 : Trip ℤ) : Bool :=
  let res := battle_loop pSt eSt 100 pHp0 eHp0 0
  let pAlive := (first_alive res.1).isSome
  let eAlive := (first_alive res.2.1).isSome
  let capReached := decide (100 ≤ res.2.2) && pAlive && eAlive
  if capReached then decide (hp_total res.2.1 < hp_total res.1)
  else pAlive && !eAlive

/-- C6: when the 100-round cap is reached with both sides still having a
living slot, the declared winner is the side with strictly greater summed
remaining health (post-floor); on exact equality the strict comparison
makes the player the loser. -/
theorem round_cap_tiebreak (pSt eSt : Trip (ℤ × ℤ × ℤ)) (pHp0 eHp0 : Trip ℤ)
    (hcap : 100 ≤ (battle_loop pSt eSt 100 pHp0 eHp0 0).2.2)
    (hpal : (first_alive (battle_loop pSt eSt 100 pHp0 eHp0 0).1).isSome = true)
    (heal : (first_alive (battle_loop pSt eSt 100 pHp0 eHp0 0).2.1).isSome = true) :
    (battle_outcome pSt eSt pHp0 eHp0 = true
        ↔ hp_total (battle_loop pSt eSt 100 pHp0 eHp0 0).2.1
            < hp_total (battle_loop pSt eSt 100 pHp0 eHp0 0).1)
      ∧ (hp_total (battle_loop pSt eSt 100 pHp0 eHp0 0).1
            = hp_total (battle_loop pSt eSt 100 pHp0 eHp0 0).2.1
          → battle_outcome pSt eSt pHp0 eHp0 = false) := by
  have hout : battle_outcome pSt eSt pHp0 eHp0
      = decide (hp_total (battle_loop pSt eSt 100 pHp0 eHp0 0).2.1
          < hp_total (battle_loop pSt eSt 100 pHp0 eHp0 0).1) := by
    unfold battle_outcome
    dsimp only
    rw [hpal, heal, decide_eq_true hcap]
    rfl
  constructor
  · rw [hout]
    exact decide_eq_true_iff
  · intro heq
    rw [hout, heq]
    simp

/-- Health and stats of the stalling witness team for the round-cap
tie-break: three slots at 1000 health with attack 1 and defense 100, so
every hit deals the floor damage 1 and round 100 is reached. -/
def stallStats : Trip (ℤ × ℤ × ℤ) :=
  ⟨(1000, 1, 100), (1000, 1, 100), (1000, 1, 100)⟩

def stallHp : Trip ℤ :=
  ⟨1000, 1000, 1000⟩

/-- Witness for `round_cap_tiebreak`: two identical stalling teams reach
round 100 with equal totals and the player is declared the loser. -/
theorem round_cap_tiebreak_witness :
    100 ≤ (battle_loop stallStats stallStats 100 stallHp stallHp 0).2.2
      ∧ (first_alive (battle_loop stallStats stallStats 100 stallHp stallHp 0).1).isSome = true
      ∧ (first_alive (battle_loop stallStats stallStats 100 stallHp stallHp 0).2.1).isSome = true
      ∧ hp_total (battle_loop stallStats stallStats 100 stallHp stallHp 0).1
          = hp_total (battle_loop stallStats stallStats 100 stallHp stallHp 0).2.1
      ∧ battle_outcome stallStats stallStats stallHp stallHp = false :=
  ⟨by decide, by decide, by decide, by decide,
    (round_cap_tiebreak stallStats stallStats stallHp stallHp
      (by decide) (by decide) (by decide)).2 (by decide)⟩

/-- Python 3's `round` to the nearest integer, ties to the even integer. -/
def pyRound (q : ℚ) : ℤ :=
  let f := ⌊q⌋
  let frac := q - (f : ℚ)
  if frac < 1/2 then f
  else if 1/2 < frac then f + 1
  else if f % 2 = 0 then f else f + 1

/-- `RARITY_COIN_WEIGHT` keyed by rarity index (`.get(..., 1.0)` default). -/
def rarity_coin_weight (idx : ℕ) : ℚ :=
  if idx = 0 then 3/5
  else if idx = 1 then 4/5
  else if idx = 2 then 1
  else if idx = 3 then 5/4
  else if idx = 4 then 8/5
  else if idx = 5 then 19/10
  else if idx = 6 then 12/5
  else 1

/-- `coins_reward(enemy_multiplier) = max(5, round(10 * enemy_multiplier))`. -/
def coins_reward (enemyMultiplier : ℚ) : ℤ :=
  max 5 (pyRound (10 * enemyMultiplier))

/-- The per-slot `slot_factor` of the reward computation:
`1.0 + (mutation_mult - 1.0)*0.35 + (food_bonus_factor - 1.0)*0.5` with
`food_bonus_factor = 1.05` when an item is equipped, else `1.0`. -/
def slot_bonus_factor (m : Mutation) (hasFood : Bool) : ℚ :=
  let fb : ℚ := if hasFood then 21/20 else 1
  1 + (mutation_multiplier_value m - 1) * (7/20) + (fb - 1) * (1/2)

/-- The energy and coin deltas computed at the end of the `battle`
command from the outcome, the two power figures, and the requester's
team composition. -/
def battle_rewards (playerWin : Bool) (enemyPower playerPower : ℚ)
    (animals : Trip Animal) (foods : Trip (Option Food)) (muts : Trip Mutation) : ℤ × ℤ :=
  let enemyMultiplier := if 0 < playerPower then enemyPower / playerPower else 1
  let energyGain : ℤ := if playerWin then 1 else 0
  let baseCoins := coins_reward enemyMultiplier
  let coinGain : ℤ :=
    if playerWin then
      let rarityMult := (rarity_coin_weight animals.s1.rarity_index
        + rarity_coin_weight animals.s2.rarity_index
        + rarity_coin_weight animals.s3.rarity_index) / 3
      let bonus := (slot_bonus_factor muts.s1 foods.s1.isSome
        + slot_bonus_factor muts.s2 foods.s2.isSome
        + slot_bonus_factor muts.s3 foods.s3.isSome) / 3
      max 5 (pyRound ((baseCoins : ℚ) * rarityMult * min bonus (8/5)))
    else 0
  (energyGain, coinGain)

lemma slot_bonus_factor_claim (m : Mutation) (b : Bool) :
    slot_bonus_factor m b
      = 1 + (mutation_multiplier_value m - 1) * (7/20)
        + (if b then (1/20 : ℚ) else 0) * (1/2) := by
  cases b <;> simp [slot_bonus_factor] <;> ring

/-- C7: energy gain is +1 on a win and +0 on a loss; the base coin reward
is `max(5, round(10 · enemyPower/playerPower))`; a loss credits 0 coins;
and a win grants `max(5, round(base · average rarity weight · min(average
slot bonus factor, 1.6)))` where a slot's factor is
`1 + (multiplier−1)·0.35 + (hasItem ? 0.05 : 0)·0.5`. -/
theorem reward_spec (w : Bool) (ep pp : ℚ) (animals : Trip Animal)
    (foods : Trip (Option Food)) (muts : Trip Mutation) (hpp : 0 < pp) :
    (battle_rewards w ep pp animals foods muts).1 = (if w then 1 else 0)
      ∧ coins_reward (ep / pp) = max 5 (pyRound (10 * (ep / pp)))
      ∧ (w = false → (battle_rewards w ep pp animals foods muts).2 = 0)
      ∧ (w = true → (battle_rewards w ep pp animals foods muts).2
          = max 5 (pyRound ((coins_reward (ep / pp) : ℚ)
              * ((rarity_coin_weight animals.s1.rarity_index
                  + rarity_coin_weight animals.s2.rarity_index
                  + rarity_coin_weight animals.s3.rarity_index) / 3)
              * min (((1 + (mutation_multiplier_value muts.s1 - 1) * (7/20)
                      + (if foods.s1.isSome then (1/20 : ℚ) else 0) * (1/2))
                    + (1 + (mutation_multiplier_value muts.s2 - 1) * (7/20)
                      + (if foods.s2.isSome then (1/20 : ℚ) else 0) * (1/2))
                    + (1 + (mutation_multiplier_value muts.s3 - 1) * (7/20)
                      + (if foods.s3.isSome then (1/20 : ℚ) else 0) * (1/2))) / 3)
                  (8/5)))) := by
  refine ⟨?_, rfl, ?_, ?_⟩
  · cases w <;> rfl
  · intro hw
    subst hw
    rfl
  · intro hw
    subst hw
    unfold battle_rewards
    dsimp only
    rw [if_pos hpp]
    rw [slot_bonus_factor_claim, slot_bonus_factor_claim, slot_bonus_factor_claim]
    rfl

/-- Catalog animals used by concrete scenarios, stats exactly as in
`build_animals`. -/
def pigAnimal : Animal := ⟨"pig", 0, Role.TANK, 10, 3, 3⟩

def mouseAnimal : Animal := ⟨"mouse", 0, Role.ATTACK, 7, 6, 1⟩

def bugAnimal : Animal := ⟨"bug", 0, Role.SUPPORT, 7, 3, 3⟩

/-- `apple` food, stats exactly as in `build_foods`. -/
def appleFood : Food := ⟨"apple", 0, 2, 0, 0⟩

def commonTeam : Trip Animal := ⟨pigAnimal, mouseAnimal, bugAnimal⟩

def noFoods : Trip (Option Food) := ⟨Option.none, Option.none, Option.none⟩

def noMuts : Trip Mutation := ⟨Mutation.none, Mutation.none, Mutation.none⟩

/-- Witness for `reward_spec`: a won battle at enemy power 100 against
player power 80 with a mutation-free, item-free common team. -/
theorem reward_spec_witness :
    (0 : ℚ) < 80
      ∧ (battle_rewards true 100 80 commonTeam noFoods noMuts).2
          = max 5 (pyRound ((coins_reward (100 / 80) : ℚ)
              * ((rarity_coin_weight commonTeam.s1.rarity_index
                  + rarity_coin_weight commonTeam.s2.rarity_index
                  + rarity_coin_weight commonTeam.s3.rarity_index) / 3)
              * min (((1 + (mutation_multiplier_value noMuts.s1 - 1) * (7/20)
                      + (if noFoods.s1.isSome then (1/20 : ℚ) else 0) * (1/2))
                    + (1 + (mutation_multiplier_value noMuts.s2 - 1) * (7/20)
                      + (if noFoods.s2.isSome then (1/20 : ℚ) else 0) * (1/2))
                    + (1 + (mutation_multiplier_value noMuts.s3 - 1) * (7/20)
                      + (if noFoods.s3.isSome then (1/20 : ℚ) else 0) * (1/2))) / 3)
                  (8/5))) :=
  ⟨by norm_num,
    (reward_spec true 100 80 commonTeam noFoods noMuts (by norm_num)).2.2.2 rfl⟩

/-- A synthesized enemy team: the three dictionaries the synthesizer
mutates in place. -/
structure EnemyTeam where
  animals : Trip Animal
  foods : Trip (Option Food)
  muts : Trip Mutation
deriving DecidableEq

def team_power (t : EnemyTeam) : ℚ :=
  calculate_team_power t.animals t.foods t.muts

/-- One step of the `slot_to_remove`/`highest` scan in
`_remove_highest_food` (strict improvement over the running best,
which starts at `-1`). -/
def best_food_step (foods : Trip (Option Food)) (acc : Option Slot × ℚ) (i : Slot) :
    Option Slot × ℚ :=
  match foods.get i with
  | Option.some f =>
    if food_power (some f) > acc.2 then (some i, food_power (some f)) else acc
  | Option.none => acc

/-- The slot `_remove_highest_food` would clear, scanning
slot1, slot2, slot3 with running best initialized to `-1`. -/
def best_food_slot (foods : Trip (Option Food)) : Option Slot :=
  (best_food_step foods
    (best_food_step foods (best_food_step foods (Option.none, -1) Slot.s1) Slot.s2)
    Slot.s3).1

/-- `_remove_highest_food`: clears the highest-power equipped item,
`none` when it found nothing to clear. -/
def remove_highest_food (foods : Trip (Option Food)) : Option (Trip (Option Food)) :=
  match best_food_slot foods with
  | Option.some i => some (foods.set i Option.none)
  | Option.none => Option.none

/-- The next-lower tier in `MUTATION_STRENGTH_ORDER`. -/
def mutation_pred : Mutation → Mutation
  | Mutation.none => Mutation.none
  | Mutation.golden => Mutation.none
  | Mutation.diamond => Mutation.golden
  | Mutation.emerald => Mutation.diamond
  | Mutation.rainbow => Mutation.emerald

/-- The next-higher tier in `MUTATION_STRENGTH_ORDER`. -/
def mutation_succ : Mutation → Mutation
  | Mutation.none => Mutation.golden
  | Mutation.golden => Mutation.diamond
  | Mutation.diamond => Mutation.emerald
  | Mutation.emerald => Mutation.rainbow
  | Mutation.rainbow => Mutation.rainbow

/-- The slot Python's stable descending sort by multiplier lists first:
the earliest slot attaining the maximal multiplier. -/
def max_mult_slot (muts : Trip Mutation) : Slot :=
  let m1 := mutation_multiplier_value muts.s1
  let m2 := mutation_multiplier_value muts.s2
  let m3 := mutation_multiplier_value muts.s3
  if m2 ≤ m1 ∧ m3 ≤ m1 then Slot.s1
  else if m3 ≤ m2 then Slot.s2
  else Slot.s3

/-- The slot Python's stable ascending sort by multiplier lists first:
the earliest slot attaining the minimal multiplier. -/
def min_mult_slot (muts : Trip Mutation) : Slot :=
  let m1 := mutation_multiplier_value muts.s1
  let m2 := mutation_multiplier_value muts.s2
  let m3 := mutation_multiplier_value muts.s3
  if m1 ≤ m2 ∧ m1 ≤ m3 then Slot.s1
  else if m2 ≤ m3 then Slot.s2
  else Slot.s3

/-- `_downgrade_mutation`: lowers the highest-multiplier slot by one
tier; fails exactly when every slot is already multiplier 1.0. -/
def downgrade_mutation (muts : Trip Mutation) : Option (Trip Mutation) :=
  let i := max_mult_slot muts
  if muts.get i = Mutation.none then Option.none
  else some (muts.set i (mutation_pred (muts.get i)))

/-- `_upgrade_mutation`: raises the lowest-multiplier slot by one tier;
fails exactly when every slot is already rainbow. -/
def upgrade_mutation (muts : Trip Mutation) : Option (Trip Mutation) :=
  let i := min_mult_slot muts
  if muts.get i = Mutation.rainbow then Option.none
  else some (muts.set i (mutation_succ (muts.get i)))

/-- The `empty_slots` list inside `_add_missing_food`. -/
def empty_food_slots (foods : Trip (Option Food)) : List Slot :=
  (if foods.s1.isNone then [Slot.s1] else [])
    ++ (if foods.s2.isNone then [Slot.s2] else [])
    ++ (if foods.s3.isNone then [Slot.s3] else [])

/-- `_add_missing_food`, with its two random draws (the chosen empty slot
and the `random_enemy_food` result) explicit; returns the updated food
map and the success flag (`foods[slot] is not None`). -/
def add_missing_food (foods : Trip (Option Food)) (slotChoice : Slot)
    (foodChoice : Option Food) : Trip (Option Food) × Bool :=
  if empty_food_slots foods = [] then (foods, false)
  else (foods.set slotChoice foodChoice, foodChoice.isSome)

/-- Candidate list of `random_enemy_food`: foods within ±1 rarity of the
animal, falling back to the whole catalog when that filter is empty. -/
def near_rarity_foods (foodCat : List Food) (a : Animal) : List Food :=
  let near := foodCat.filter
    (fun f => |(f.rarity_index : ℤ) - (a.rarity_index : ℤ)| ≤ 1)
  if near = [] then foodCat else near

/-- Support of `random_enemy_food`: with probability 0.65 the draw is
`None`, otherwise a uniform pick from `near_rarity_foods`. -/
def random_enemy_food_support (foodCat : List Food) (a : Animal) : Option Food → Bool
  | Option.none => true
  | Option.some f => decide (f ∈ near_rarity_foods foodCat a)

/-- Candidate list of `random_animal_by_rarity_and_role`. -/
def animal_pool (animalCat : List Animal) (allowed : List ℕ) (role : Role) : List Animal :=
  animalCat.filter (fun a => a.role = role ∧ a.rarity_index ∈ allowed)

/-- One random-choice bundle consumed by one repair iteration: the empty
slot and food draw of `_add_missing_food`, and the re-roll's slot, unit,
food and mutation draws. -/
structure RepairChoice where
  addSlot : Slot
  addFood : Option Food
  rerollSlot : Slot
  rerollAnimal : Animal
  rerollFood : Option Food
  rerollMut : Mutation
deriving DecidableEq

/-- The choices a repair iteration's `random.*` calls can actually
produce, given the catalogs and the allowed rarity indices
(`random_enemy_mutation` can produce every tier, so the mutation draw is
unconstrained). -/
def valid_repair_choice (animalCat : List Animal) (foodCat : List Food) (allowed : List ℕ)
    (t : EnemyTeam) (c : RepairChoice) : Prop :=
  (empty_food_slots t.foods ≠ [] →
      c.addSlot ∈ empty_food_slots t.foods
        ∧ random_enemy_food_support foodCat (t.animals.get c.addSlot) c.addFood = true)
    ∧ c.rerollAnimal ∈ animal_pool animalCat allowed (t.animals.get c.rerollSlot).role
    ∧ random_enemy_food_support foodCat c.rerollAnimal c.rerollFood = true

/-- The body of `adjust_enemy_team`'s first (350-iteration) repair loop,
run when the team power is outside the window: over the max it tries
removing the highest-power item, then downgrading, then re-rolls a random
slot with item and mutation cleared; otherwise it tries adding an item to
an empty slot, then upgrading, then re-rolls a random slot with freshly
drawn item and mutation. -/
def repair_mutate (t : EnemyTeam) (tmax : ℚ) (c : RepairChoice) : EnemyTeam :=
  let p := team_power t
  if p > tmax then
    match remove_highest_food t.foods with
    | Option.some fs => ⟨t.animals, fs, t.muts⟩
    | Option.none =>
      match downgrade_mutation t.muts with
      | Option.some ms => ⟨t.animals, t.foods, ms⟩
      | Option.none =>
        ⟨t.animals.set c.rerollSlot c.rerollAnimal,
         t.foods.set c.rerollSlot Option.none,
         t.muts.set c.rerollSlot Mutation.none⟩
  else
    let afr := add_missing_food t.foods c.addSlot c.addFood
    if afr.2 then ⟨t.animals, afr.1, t.muts⟩
    else
      match upgrade_mutation t.muts with
      | Option.some ms => ⟨t.animals, afr.1, ms⟩
      | Option.none =>
        ⟨t.animals.set c.rerollSlot c.rerollAnimal,
         afr.1.set c.rerollSlot c.rerollFood,
         t.muts.set c.rerollSlot c.rerollMut⟩

/-- The body of the final 200-iteration enforcement loop: same priority
order, but the re-roll pins the unit to the weakest (over max) or
strongest (below min) allowed rarity and forces no item / the strongest
item and mutation `"none"` / rainbow. -/
def enforce_mutate (strongestFood : Food) (t : EnemyTeam) (tmax : ℚ)
    (c : RepairChoice) : EnemyTeam :=
  let p := team_power t
  if p > tmax then
    match remove_highest_food t.foods with
    | Option.some fs => ⟨t.animals, fs, t.muts⟩
    | Option.none =>
      match downgrade_mutation t.muts with
      | Option.some ms => ⟨t.animals, t.foods, ms⟩
      | Option.none =>
        ⟨t.animals.set c.rerollSlot c.rerollAnimal,
         t.foods.set c.rerollSlot Option.none,
         t.muts.set c.rerollSlot Mutation.none⟩
  else
    let afr := add_missing_food t.foods c.addSlot c.addFood
    if afr.2 then ⟨t.animals, afr.1, t.muts⟩
    else
      match upgrade_mutation t.muts with
      | Option.some ms => ⟨t.animals, afr.1, ms⟩
      | Option.none =>
        ⟨t.animals.set c.rerollSlot c.rerollAnimal,
         afr.1.set c.rerollSlot (some strongestFood),
         t.muts.set c.rerollSlot Mutation.rainbow⟩

/-- The first repair loop (`for _ in range(350)`): returns early with
flag `true` when the power enters the window (the source's
`return current_power`), else applies `repair_mutate` and continues; flag
`false` means the 350 iterations were exhausted. -/
def adjust_loop_a (tmin tmax : ℚ) (o : ℕ → RepairChoice) :
    ℕ → EnemyTeam → EnemyTeam × Bool
  | 0, t => (t, false)
  | fuel + 1, t =>
    let p := team_power t
    if tmin ≤ p ∧ p ≤ tmax then (t, true)
    else adjust_loop_a tmin tmax (fun k => o (k + 1)) fuel (repair_mutate t tmax (o 0))

/-- The final enforcement loop (`for _ in range(200)` with `break` on an
in-window power); flag `false` means all 200 iterations ran without the
check ever passing. -/
def adjust_loop_b (strongestFood : Food) (tmin tmax : ℚ) (o : ℕ → RepairChoice) :
    ℕ → EnemyTeam → EnemyTeam × Bool
  | 0, t => (t, false)
  | fuel + 1, t =>
    let p := team_power t
    if tmin ≤ p ∧ p ≤ tmax then (t, true)
    else adjust_loop_b strongestFood tmin tmax (fun k => o (k + 1)) fuel
      (enforce_mutate strongestFood t tmax (o 0))

/-- `max(list, key=food_power)` over a `Food` list: keeps the first
maximum, replacing only on strict improvement, like Python's `max`. -/
def max_food (l : List Food) (acc : Food) : Food :=
  l.foldl (fun b f => if food_power (some f) > food_power (some b) then f else b) acc

/-- `strongest_food = max(FOODS.values(), key=food_power)` (`none` only
for an empty catalog, where Python's `max` would raise). -/
def strongest_food (foodCat : List Food) : Option Food :=
  match foodCat with
  | [] => Option.none
  | f :: rest => some (max_food rest f)

/-- `adjust_enemy_team`: the 350-iteration repair loop with its early
in-window return, then the 200-iteration enforcement pass, then an
unconditional return of the final team and its power — there is no
failure channel. -/
def adjust_enemy_team (foodCat : List Food) (tmin tmax : ℚ) (t0 : EnemyTeam)
    (o1 o2 : ℕ → RepairChoice) : EnemyTeam × ℚ :=
  let ra := adjust_loop_a tmin tmax o1 350 t0
  if ra.2 then (ra.1, team_power ra.1)
  else
    match strongest_food foodCat with
    | Option.none => (ra.1, team_power ra.1)
    | Option.some sf =>
      let rb := adjust_loop_b sf tmin tmax o2 200 ra.1
      (rb.1, team_power rb.1)

/-- Every slot's mutation is `"none"` (the state in which
`_downgrade_mutation` fails). -/
def all_mut_none (muts : Trip Mutation) : Prop :=
  muts.s1 = Mutation.none ∧ muts.s2 = Mutation.none ∧ muts.s3 = Mutation.none

/-- Every slot's mutation is rainbow (the state in which
`_upgrade_mutation` fails). -/
def all_mut_rainbow (muts : Trip Mutation) : Prop :=
  muts.s1 = Mutation.rainbow ∧ muts.s2 = Mutation.rainbow ∧ muts.s3 = Mutation.rainbow

lemma mem_empty_food_slots (foods : Trip (Option Food)) (i : Slot) :
    i ∈ empty_food_slots foods ↔ foods.get i = Option.none := by
  cases i <;>
    · simp only [empty_food_slots, Trip.get, List.mem_append, List.mem_singleton]
      split_ifs <;> simp_all [Option.isNone_iff_eq_none]

lemma Trip.set_none_of_get_none (foods : Trip (Option Food)) (i : Slot)
    (h : foods.get i = Option.none) : foods.set i Option.none = foods := by
  obtain ⟨f1, f2, f3⟩ := foods
  cases i <;> simp_all [Trip.get, Trip.set]

lemma mmv_ge_one (m : Mutation) : 1 ≤ mutation_multiplier_value m := by
  cases m <;> norm_num [mutation_multiplier_value]

lemma mmv_le_five (m : Mutation) : mutation_multiplier_value m ≤ 5 := by
  cases m <;> norm_num [mutation_multiplier_value]

lemma mmv_eq_one_iff (m : Mutation) : mutation_multiplier_value m = 1 ↔ m = Mutation.none := by
  cases m <;> norm_num [mutation_multiplier_value] <;> decide

lemma mmv_eq_five_iff (m : Mutation) :
    mutation_multiplier_value m = 5 ↔ m = Mutation.rainbow := by
  cases m <;> norm_num [mutation_multiplier_value] <;> decide

lemma max_mult_slot_spec (muts : Trip Mutation) (j : Slot) :
    mutation_multiplier_value (muts.get j)
      ≤ mutation_multiplier_value (muts.get (max_mult_slot muts)) := by
  unfold max_mult_slot
  dsimp only
  split_ifs with h1 h2
  · cases j
    · exact le_refl _
    · exact h1.1
    · exact h1.2
  · rcases not_and_or.mp h1 with h | h <;> cases j <;>
      simp only [Trip.get] <;> first | exact le_refl _ | linarith [not_le.mp h]
  · rcases not_and_or.mp h1 with h | h <;> cases j <;>
      simp only [Trip.get] <;>
      first | exact le_refl _ | linarith [not_le.mp h, not_le.mp h2]

lemma min_mult_slot_spec (muts : Trip Mutation) (j : Slot) :
    mutation_multiplier_value (muts.get (min_mult_slot muts))
      ≤ mutation_multiplier_value (muts.get j) := by
  unfold min_mult_slot
  dsimp only
  split_ifs with h1 h2
  · cases j
    · exact le_refl _
    · exact h1.1
    · exact h1.2
  · rcases not_and_or.mp h1 with h | h <;> cases j <;>
      simp only [Trip.get] <;> first | exact le_refl _ | linarith [not_le.mp h]
  · rcases not_and_or.mp h1 with h | h <;> cases j <;>
      simp only [Trip.get] <;>
      first | exact le_refl _ | linarith [not_le.mp h, not_le.mp h2]

lemma get_max_mult_slot_none_iff (muts : Trip Mutation) :
    muts.get (max_mult_slot muts) = Mutation.none ↔ all_mut_none muts := by
  constructor
  · intro h
    have hb : ∀ j : Slot, mutation_multiplier_value (muts.get j) = 1 := by
      intro j
      have h1 := max_mult_slot_spec muts j
      rw [h] at h1
      simp only [mutation_multiplier_value] at h1
      exact le_antisymm h1 (mmv_ge_one _)
    exact ⟨(mmv_eq_one_iff _).mp (hb Slot.s1), (mmv_eq_one_iff _).mp (hb Slot.s2),
      (mmv_eq_one_iff _).mp (hb Slot.s3)⟩
  · rintro ⟨h1, h2, h3⟩
    cases hms : max_mult_slot muts <;> simp only [Trip.get] <;> assumption

lemma get_min_mult_slot_rainbow_iff (muts : Trip Mutation) :
    muts.get (min_mult_slot muts) = Mutation.rainbow ↔ all_mut_rainbow muts := by
  constructor
  · intro h
    have hb : ∀ j : Slot, mutation_multiplier_value (muts.get j) = 5 := by
      intro j
      have h1 := min_mult_slot_spec muts j
      rw [h] at h1
      simp only [mutation_multiplier_value] at h1
      exact le_antisymm (mmv_le_five _) h1
    exact ⟨(mmv_eq_five_iff _).mp (hb Slot.s1), (mmv_eq_five_iff _).mp (hb Slot.s2),
      (mmv_eq_five_iff _).mp (hb Slot.s3)⟩
  · rintro ⟨h1, h2, h3⟩
    cases hms : min_mult_slot muts <;> simp only [Trip.get] <;> assumption

lemma downgrade_mutation_none_iff (muts : Trip Mutation) :
    downgrade_mutation muts = Option.none ↔ all_mut_none muts := by
  unfold downgrade_mutation
  dsimp only
  split_ifs with h
  · simp only [true_iff]
    exact (get_max_mult_slot_none_iff muts).mp h
  · simp only [false_iff, (Option.some_ne_none _)]
    exact fun hc => h ((get_max_mult_slot_none_iff muts).mpr hc)

lemma upgrade_mutation_none_iff (muts : Trip Mutation) :
    upgrade_mutation muts = Option.none ↔ all_mut_rainbow muts := by
  unfold upgrade_mutation
  dsimp only
  split_ifs with h
  · simp only [true_iff]
    exact (get_min_mult_slot_rainbow_iff muts).mp h
  · simp only [false_iff, (Option.some_ne_none _)]
    exact fun hc => h ((get_min_mult_slot_rainbow_iff muts).mpr hc)

lemma downgrade_mutation_eq_some (muts : Trip Mutation) (h : ¬ all_mut_none muts) :
    downgrade_mutation muts
      = some (muts.set (max_mult_slot muts)
          (mutation_pred (muts.get (max_mult_slot muts)))) := by
  unfold downgrade_mutation
  dsimp only
  rw [if_neg (fun hc => h ((get_max_mult_slot_none_iff muts).mp hc))]

lemma upgrade_mutation_eq_some (muts : Trip Mutation) (h : ¬ all_mut_rainbow muts) :
    upgrade_mutation muts
      = some (muts.set (min_mult_slot muts)
          (mutation_succ (muts.get (min_mult_slot muts)))) := by
  unfold upgrade_mutation
  dsimp only
  rw [if_neg (fun hc => h ((get_min_mult_slot_rainbow_iff muts).mp hc))]

lemma best_food_slot_spec (foods : Trip (Option Food)) (i : Slot)
    (h : best_food_slot foods = some i) :
    (foods.get i).isSome = true
      ∧ ∀ j, (foods.get j).isSome = true
          → food_power (foods.get j) ≤ food_power (foods.get i) := by
  obtain ⟨f1, f2, f3⟩ := foods
  cases f1 <;> cases f2 <;> cases f3 <;>
    · simp only [best_food_slot, best_food_step, Trip.get] at h ⊢
      try split_ifs at h
      all_goals try dsimp only at *
      all_goals first | exact Option.noConfusion h | injection h with h
      all_goals subst h
      all_goals refine ⟨rfl, fun j => ?_⟩
      all_goals cases j
      all_goals try dsimp only
      all_goals intro hj
      all_goals first | (simp at hj; done) | linarith

lemma repair_mutate_remove_item (t : EnemyTeam) (tmax : ℚ) (c : RepairChoice) (i : Slot)
    (hp : tmax < team_power t) (hbest : best_food_slot t.foods = some i) :
    repair_mutate t tmax c = ⟨t.animals, t.foods.set i Option.none, t.muts⟩ := by
  unfold repair_mutate remove_highest_food
  dsimp only
  rw [if_pos hp, hbest]

lemma repair_mutate_downgrade (t : EnemyTeam) (tmax : ℚ) (c : RepairChoice)
    (hp : tmax < team_power t) (hbest : best_food_slot t.foods = Option.none)
    (hnn : ¬ all_mut_none t.muts) :
    repair_mutate t tmax c
      = ⟨t.animals, t.foods,
         t.muts.set (max_mult_slot t.muts)
           (mutation_pred (t.muts.get (max_mult_slot t.muts)))⟩ := by
  unfold repair_mutate remove_highest_food
  dsimp only
  rw [if_pos hp, hbest, downgrade_mutation_eq_some t.muts hnn]

lemma repair_mutate_reroll_over (t : EnemyTeam) (tmax : ℚ) (c : RepairChoice)
    (hp : tmax < team_power t) (hbest : best_food_slot t.foods = Option.none)
    (hall : all_mut_none t.muts) :
    repair_mutate t tmax c
      = ⟨t.animals.set c.rerollSlot c.rerollAnimal,
         t.foods.set c.rerollSlot Option.none,
         t.muts.set c.rerollSlot Mutation.none⟩ := by
  unfold repair_mutate remove_highest_food
  dsimp only
  rw [if_pos hp, hbest, (downgrade_mutation_none_iff t.muts).mpr hall]

lemma repair_mutate_add_item (t : EnemyTeam) (tmin tmax : ℚ) (c : RepairChoice)
    (hmm : tmin ≤ tmax) (hp : team_power t < tmin)
    (hne : empty_food_slots t.foods ≠ []) (hfs : c.addFood.isSome = true) :
    repair_mutate t tmax c = ⟨t.animals, t.foods.set c.addSlot c.addFood, t.muts⟩ := by
  unfold repair_mutate add_missing_food
  dsimp only
  rw [if_neg (by rw [not_lt]; exact le_trans (le_of_lt hp) hmm : ¬ team_power t > tmax),
    if_neg hne]
  simp only [hfs, if_true]

lemma add_missing_food_noop (t : EnemyTeam) (c : RepairChoice)
    (hre : c.addSlot ∈ empty_food_slots t.foods → t.foods.get c.addSlot = Option.none)
    (hor : empty_food_slots t.foods = [] ∨ c.addFood = Option.none)
    (hv : empty_food_slots t.foods ≠ [] → c.addSlot ∈ empty_food_slots t.foods) :
    add_missing_food t.foods c.addSlot c.addFood = (t.foods, false) := by
  unfold add_missing_food
  by_cases hemp : empty_food_slots t.foods = []
  · rw [if_pos hemp]
  · rw [if_neg hemp]
    rcases hor with hemp2 | haf
    · exact absurd hemp2 hemp
    · rw [haf, Trip.set_none_of_get_none _ _ (hre (hv hemp))]
      rfl

lemma repair_mutate_upgrade (t : EnemyTeam) (tmin tmax : ℚ) (c : RepairChoice)
    (hmm : tmin ≤ tmax) (hp : team_power t < tmin)
    (hafr : add_missing_food t.foods c.addSlot c.addFood = (t.foods, false))
    (hnr : ¬ all_mut_rainbow t.muts) :
    repair_mutate t tmax c
      = ⟨t.animals, t.foods,
         t.muts.set (min_mult_slot t.muts)
           (mutation_succ (t.muts.get (min_mult_slot t.muts)))⟩ := by
  unfold repair_mutate
  dsimp only
  rw [if_neg (by rw [not_lt]; exact le_trans (le_of_lt hp) hmm : ¬ team_power t > tmax),
    hafr, upgrade_mutation_eq_some t.muts hnr]
  rfl

lemma repair_mutate_reroll_under (t : EnemyTeam) (tmin tmax : ℚ) (c : RepairChoice)
    (hmm : tmin ≤ tmax) (hp : team_power t < tmin)
    (hafr : add_missing_food t.foods c.addSlot c.addFood = (t.foods, false))
    (hall : all_mut_rainbow t.muts) :
    repair_mutate t tmax c
      = ⟨t.animals.set c.rerollSlot c.rerollAnimal,
         t.foods.set c.rerollSlot c.rerollFood,
         t.muts.set c.rerollSlot c.rerollMut⟩ := by
  unfold repair_mutate
  dsimp only
  rw [if_neg (by rw [not_lt]; exact le_trans (le_of_lt hp) hmm : ¬ team_power t > tmax),
    hafr, (upgrade_mutation_none_iff t.muts).mpr hall]
  rfl

lemma enforce_mutate_reroll_under (sf : Food) (t : EnemyTeam) (tmin tmax : ℚ)
    (c : RepairChoice) (hmm : tmin ≤ tmax) (hp : team_power t < tmin)
    (hafr : add_missing_food t.foods c.addSlot c.addFood = (t.foods, false))
    (hall : all_mut_rainbow t.muts) :
    enforce_mutate sf t tmax c
      = ⟨t.animals.set c.rerollSlot c.rerollAnimal,
         t.foods.set c.rerollSlot (some sf),
         t.muts.set c.rerollSlot Mutation.rainbow⟩ := by
  unfold enforce_mutate
  dsimp only
  rw [if_neg (by rw [not_lt]; exact le_trans (le_of_lt hp) hmm : ¬ team_power t > tmax),
    hafr, (upgrade_mutation_none_iff t.muts).mpr hall]
  rfl

/-- `horse` catalog animal, stats exactly as in `build_animals`. -/
def horseAnimal : Animal := ⟨"horse", 1, Role.TANK, 13, 4, 4⟩

/-- Small catalog slice used by concrete synthesizer scenarios. -/
def smallAnimalCat : List Animal := [pigAnimal, mouseAnimal, bugAnimal, horseAnimal]

/-- C8 (amended): one iteration of the 350-iteration repair loop on an
out-of-window team follows this priority order — above the max it first
removes the highest-power equipped item (the scanned slot carries an item
of maximal power among equipped ones), else downgrades the
highest-multiplier slot to the next-lower tier, else re-rolls one random
slot's unit within the allowed rarities with item and mutation cleared;
below the min it first adds an item to an empty slot, else upgrades the
lowest-multiplier slot, else re-rolls one random slot's unit within the
allowed rarities with a freshly sampled random item and random mutation.
(The re-roll pinned to the weakest/strongest allowed rarity with the
strongest item and top mutation forced happens only in the later
200-iteration enforcement pass, not here.) -/
theorem repair_step_amended (animalCat : List Animal) (foodCat : List Food)
    (allowed : List ℕ) (t : EnemyTeam) (tmin tmax : ℚ) (c : RepairChoice)
    (hmm : tmin ≤ tmax)
    (hv : valid_repair_choice animalCat foodCat allowed t c) :
    (tmax < team_power t → ∀ i, best_food_slot t.foods = some i →
        repair_mutate t tmax c = ⟨t.animals, t.foods.set i Option.none, t.muts⟩
          ∧ (t.foods.get i).isSome = true
          ∧ ∀ j, (t.foods.get j).isSome = true
              → food_power (t.foods.get j) ≤ food_power (t.foods.get i))
      ∧ (tmax < team_power t → best_food_slot t.foods = Option.none
          → ¬ all_mut_none t.muts →
            repair_mutate t tmax c
              = ⟨t.animals, t.foods,
                 t.muts.set (max_mult_slot t.muts)
                   (mutation_pred (t.muts.get (max_mult_slot t.muts)))⟩
              ∧ ∀ j, mutation_multiplier_value (t.muts.get j)
                  ≤ mutation_multiplier_value (t.muts.get (max_mult_slot t.muts)))
      ∧ (tmax < team_power t → best_food_slot t.foods = Option.none
          → all_mut_none t.muts →
            repair_mutate t tmax c
              = ⟨t.animals.set c.rerollSlot c.rerollAnimal,
                 t.foods.set c.rerollSlot Option.none,
                 t.muts.set c.rerollSlot Mutation.none⟩
              ∧ c.rerollAnimal ∈ animal_pool animalCat allowed (t.animals.get c.rerollSlot).role)
      ∧ (team_power t < tmin → empty_food_slots t.foods ≠ []
          → c.addFood.isSome = true →
            repair_mutate t tmax c = ⟨t.animals, t.foods.set c.addSlot c.addFood, t.muts⟩
              ∧ t.foods.get c.addSlot = Option.none
              ∧ random_enemy_food_support foodCat (t.animals.get c.addSlot) c.addFood = true)
      ∧ (team_power t < tmin
          → (empty_food_slots t.foods = [] ∨ c.addFood = Option.none)
          → ¬ all_mut_rainbow t.muts →
            repair_mutate t tmax c
              = ⟨t.animals, t.foods,
                 t.muts.set (min_mult_slot t.muts)
                   (mutation_succ (t.muts.get (min_mult_slot t.muts)))⟩
              ∧ ∀ j, mutation_multiplier_value (t.muts.get (min_mult_slot t.muts))
                  ≤ mutation_multiplier_value (t.muts.get j))
      ∧ (team_power t < tmin
          → (empty_food_slots t.foods = [] ∨ c.addFood = Option.none)
          → all_mut_rainbow t.muts →
            repair_mutate t tmax c
              = ⟨t.animals.set c.rerollSlot c.rerollAnimal,
                 t.foods.set c.rerollSlot c.rerollFood,
                 t.muts.set c.rerollSlot c.rerollMut⟩
              ∧ c.rerollAnimal ∈ animal_pool animalCat allowed (t.animals.get c.rerollSlot).role
              ∧ random_enemy_food_support foodCat c.rerollAnimal c.rerollFood = true) := by
  have hre : c.addSlot ∈ empty_food_slots t.foods → t.foods.get c.addSlot = Option.none :=
    fun hm => (mem_empty_food_slots t.foods c.addSlot).mp hm
  have hvmem : empty_food_slots t.foods ≠ [] → c.addSlot ∈ empty_food_slots t.foods :=
    fun hne => (hv.1 hne).1
  refine ⟨?_, ?_, ?_, ?_, ?_, ?_⟩
  · intro hp i hbest
    exact ⟨repair_mutate_remove_item t tmax c i hp hbest,
      (best_food_slot_spec t.foods i hbest).1, (best_food_slot_spec t.foods i hbest).2⟩
  · intro hp hbest hnn
    exact ⟨repair_mutate_downgrade t tmax c hp hbest hnn,
      fun j => max_mult_slot_spec t.muts j⟩
  · intro hp hbest hall
    exact ⟨repair_mutate_reroll_over t tmax c hp hbest hall, hv.2.1⟩
  · intro hp hne hfs
    exact ⟨repair_mutate_add_item t tmin tmax c hmm hp hne hfs,
      hre (hvmem hne), (hv.1 hne).2⟩
  · intro hp hor hnr
    exact ⟨repair_mutate_upgrade t tmin tmax c hmm hp
        (add_missing_food_noop t c hre hor hvmem) hnr,
      fun j => min_mult_slot_spec t.muts j⟩
  · intro hp hor hall
    exact ⟨repair_mutate_reroll_under t tmin tmax c hmm hp
        (add_missing_food_noop t c hre hor hvmem) hall,
      hv.2.1, hv.2.2⟩

/-- Below-window team used by the `repair_step_amended` witness:
mutation-free, item-free commons. -/
def wTeamBelow : EnemyTeam := ⟨commonTeam, noFoods, noMuts⟩

/-- Choice bundle for the `repair_step_amended` witness. -/
def wChoiceBelow : RepairChoice :=
  ⟨Slot.s1, some appleFood, Slot.s1, pigAnimal, Option.none, Mutation.none⟩

/-- Witness for `repair_step_amended`: a below-window team with empty
item slots gets an item added to the chosen empty slot. -/
theorem repair_step_amended_witness :
    (100 : ℚ) ≤ 200
      ∧ valid_repair_choice smallAnimalCat [appleFood] [0, 1] wTeamBelow wChoiceBelow
      ∧ team_power wTeamBelow < 100
      ∧ empty_food_slots wTeamBelow.foods ≠ []
      ∧ wChoiceBelow.addFood.isSome = true
      ∧ repair_mutate wTeamBelow 200 wChoiceBelow
          = ⟨wTeamBelow.animals, wTeamBelow.foods.set wChoiceBelow.addSlot wChoiceBelow.addFood,
             wTeamBelow.muts⟩ := by
  have hp : team_power wTeamBelow < 100 := by
    norm_num [team_power, calculate_team_power, effective_power, power, food_power,
      mutation_multiplier_value, wTeamBelow, commonTeam, noFoods, noMuts,
      pigAnimal, mouseAnimal, bugAnimal]
  have hv : valid_repair_choice smallAnimalCat [appleFood] [0, 1] wTeamBelow wChoiceBelow :=
    ⟨fun _ => ⟨by decide, by decide⟩, by decide, by decide⟩
  refine ⟨by norm_num, hv, hp, by decide, by decide, ?_⟩
  exact ((repair_step_amended smallAnimalCat [appleFood] [0, 1] wTeamBelow 100 200
    wChoiceBelow (by norm_num) hv).2.2.2.1 hp (by decide) (by decide)).1

/-- Out-of-window (below-min) team on which the 350-iteration loop's
re-roll fires: all item slots filled, every mutation already rainbow. -/
def cexRepairTeam : EnemyTeam :=
  ⟨commonTeam, ⟨some appleFood, some appleFood, some appleFood⟩,
   ⟨Mutation.rainbow, Mutation.rainbow, Mutation.rainbow⟩⟩

/-- A choice the loop's samplers can produce: re-roll slot 1 to `pig`
(rarity 0func, not the highest allowed), item draw `None` (65 % case),
mutation draw `"none"` (55 % case). -/
def cexRepairChoice : RepairChoice :=
  ⟨Slot.s1, Option.none, Slot.s1, pigAnimal, Option.none, Mutation.none⟩

/-- C8 (counterexample): in the 350-iteration repair loop, the re-roll of
a below-window team does NOT force the highest allowed rarity, the single
strongest item and the top mutation tier — a reachable random draw leaves
the re-rolled slot with a lowest-rarity unit, no item and mutation
`"none"`. -/
theorem repair_reroll_cex :
    team_power cexRepairTeam < 1000
      ∧ valid_repair_choice smallAnimalCat [appleFood] [0, 1] cexRepairTeam cexRepairChoice
      ∧ empty_food_slots cexRepairTeam.foods = []
      ∧ all_mut_rainbow cexRepairTeam.muts
      ∧ repair_mutate cexRepairTeam 2000 cexRepairChoice
          = ⟨commonTeam, ⟨Option.none, some appleFood, some appleFood⟩,
             ⟨Mutation.none, Mutation.rainbow, Mutation.rainbow⟩⟩
      ∧ (repair_mutate cexRepairTeam 2000 cexRepairChoice).muts.get Slot.s1 ≠ Mutation.rainbow
      ∧ (repair_mutate cexRepairTeam 2000 cexRepairChoice).foods.get Slot.s1 = Option.none
      ∧ ((repair_mutate cexRepairTeam 2000 cexRepairChoice).animals.get Slot.s1).rarity_index
          ≠ 1 := by
  have hp : team_power cexRepairTeam < 1000 := by
    norm_num [team_power, calculate_team_power, effective_power, power, food_power,
      mutation_multiplier_value, cexRepairTeam, commonTeam,
      pigAnimal, mouseAnimal, bugAnimal, appleFood]
  have hstep : repair_mutate cexRepairTeam 2000 cexRepairChoice
      = ⟨commonTeam, ⟨Option.none, some appleFood, some appleFood⟩,
         ⟨Mutation.none, Mutation.rainbow, Mutation.rainbow⟩⟩ := by
    rw [repair_mutate_reroll_under cexRepairTeam 1000 2000 cexRepairChoice
      (by norm_num) hp rfl ⟨rfl, rfl, rfl⟩]
    rfl
  have hv : valid_repair_choice smallAnimalCat [appleFood] [0, 1] cexRepairTeam cexRepairChoice :=
    ⟨fun hne => absurd rfl hne, by decide, by decide⟩
  refine ⟨hp, hv, rfl, ⟨rfl, rfl, rfl⟩, hstep, ?_, ?_, ?_⟩ <;> rw [hstep] <;> decide

lemma adjust_loop_a_in_window (tmin tmax : ℚ) (fuel : ℕ) :
    ∀ (o : ℕ → RepairChoice) (t : EnemyTeam),
      (adjust_loop_a tmin tmax o fuel t).2 = true →
        tmin ≤ team_power (adjust_loop_a tmin tmax o fuel t).1
          ∧ team_power (adjust_loop_a tmin tmax o fuel t).1 ≤ tmax := by
  induction fuel with
  | zero => intro o t h; exact absurd h (by simp [adjust_loop_a])
  | succ n ih =>
    intro o t h
    simp only [adjust_loop_a] at h ⊢
    by_cases hw : tmin ≤ team_power t ∧ team_power t ≤ tmax
    · rw [if_pos hw] at h ⊢
      exact hw
    · rw [if_neg hw] at h ⊢
      exact ih _ _ h

lemma adjust_loop_b_in_window (sf : Food) (tmin tmax : ℚ) (fuel : ℕ) :
    ∀ (o : ℕ → RepairChoice) (t : EnemyTeam),
      (adjust_loop_b sf tmin tmax o fuel t).2 = true →
        tmin ≤ team_power (adjust_loop_b sf tmin tmax o fuel t).1
          ∧ team_power (adjust_loop_b sf tmin tmax o fuel t).1 ≤ tmax := by
  induction fuel with
  | zero => intro o t h; exact absurd h (by simp [adjust_loop_b])
  | succ n ih =>
    intro o t h
    simp only [adjust_loop_b] at h ⊢
    by_cases hw : tmin ≤ team_power t ∧ team_power t ≤ tmax
    · rw [if_pos hw] at h ⊢
      exact hw
    · rw [if_neg hw] at h ⊢
      exact ih _ _ h

/-- C9 (amended): the power `adjust_enemy_team` returns is always the
returned team's power, and whenever it is outside `[min, max]` the return
was reached through search exhaustion — the 350-iteration repair loop
never saw an in-window power (flag `false`) and the 200-iteration
enforcement loop's in-window break never fired either; the out-of-window
team is returned through the one ordinary return path, with no failure
reported. -/
theorem adjust_window_amended (foodCat : List Food) (tmin tmax : ℚ) (t0 : EnemyTeam)
    (o1 o2 : ℕ → RepairChoice) :
    (adjust_enemy_team foodCat tmin tmax t0 o1 o2).2
        = team_power (adjust_enemy_team foodCat tmin tmax t0 o1 o2).1
      ∧ (¬ (tmin ≤ (adjust_enemy_team foodCat tmin tmax t0 o1 o2).2
            ∧ (adjust_enemy_team foodCat tmin tmax t0 o1 o2).2 ≤ tmax) →
          (adjust_loop_a tmin tmax o1 350 t0).2 = false
            ∧ ∀ sf, strongest_food foodCat = some sf →
                (adjust_loop_b sf tmin tmax o2 200
                  (adjust_loop_a tmin tmax o1 350 t0).1).2 = false) := by
  unfold adjust_enemy_team
  dsimp only
  cases hra : (adjust_loop_a tmin tmax o1 350 t0).2
  · rw [if_neg (by simp : ¬ (false = true))]
    cases hsf : strongest_food foodCat
    · refine ⟨rfl, fun _ => ⟨rfl, fun sf hs => ?_⟩⟩
      exact Option.noConfusion hs
    · dsimp only
      refine ⟨rfl, fun hout => ⟨rfl, fun sf hs => ?_⟩⟩
      obtain rfl : _ = sf := Option.some.inj hs
      cases hrb : (adjust_loop_b _ tmin tmax o2 200 (adjust_loop_a tmin tmax o1 350 t0).1).2
      · rfl
      · exact absurd (adjust_loop_b_in_window _ tmin tmax 200 o2 _ hrb) hout
  · rw [if_pos rfl]
    exact ⟨rfl, fun hout => absurd (adjust_loop_a_in_window tmin tmax 350 o1 t0 hra) hout⟩

lemma adjust_loop_a_fixed (tmin tmax : ℚ) (c : RepairChoice) (t : EnemyTeam)
    (hout : ¬ (tmin ≤ team_power t ∧ team_power t ≤ tmax))
    (hstep : repair_mutate t tmax c = t) :
    ∀ fuel, adjust_loop_a tmin tmax (fun _ => c) fuel t = (t, false) := by
  intro fuel
  induction fuel with
  | zero => rfl
  | succ n ih =>
    simp only [adjust_loop_a]
    rw [if_neg hout, hstep]
    exact ih

lemma adjust_loop_b_fixed (sf : Food) (tmin tmax : ℚ) (c : RepairChoice) (t : EnemyTeam)
    (hout : ¬ (tmin ≤ team_power t ∧ team_power t ≤ tmax))
    (hstep : enforce_mutate sf t tmax c = t) :
    ∀ fuel, adjust_loop_b sf tmin tmax (fun _ => c) fuel t = (t, false) := by
  intro fuel
  induction fuel with
  | zero => rfl
  | succ n ih =>
    simp only [adjust_loop_b]
    rw [if_neg hout, hstep]
    exact ih

/-- Choice bundle that keeps `cexRepairTeam` a fixed point of both repair
loops (re-draws exactly what the slot already holds). -/
def cexStuckChoice : RepairChoice :=
  ⟨Slot.s1, Option.none, Slot.s1, pigAnimal, some appleFood, Mutation.rainbow⟩

lemma cex_team_power_below : ¬ ((10000 : ℚ) ≤ team_power cexRepairTeam
    ∧ team_power cexRepairTeam ≤ 20000) := by
  rw [not_and_or]
  left
  rw [not_le]
  norm_num [team_power, calculate_team_power, effective_power, power, food_power,
    mutation_multiplier_value, cexRepairTeam, commonTeam,
    pigAnimal, mouseAnimal, bugAnimal, appleFood]

lemma cex_repair_fixed : repair_mutate cexRepairTeam 20000 cexStuckChoice = cexRepairTeam := by
  have hp : team_power cexRepairTeam < 10000 := by
    norm_num [team_power, calculate_team_power, effective_power, power, food_power,
      mutation_multiplier_value, cexRepairTeam, commonTeam,
      pigAnimal, mouseAnimal, bugAnimal, appleFood]
  rw [repair_mutate_reroll_under cexRepairTeam 10000 20000 cexStuckChoice
    (by norm_num) hp rfl ⟨rfl, rfl, rfl⟩]
  rfl

lemma cex_enforce_fixed :
    enforce_mutate appleFood cexRepairTeam 20000 cexStuckChoice = cexRepairTeam := by
  have hp : team_power cexRepairTeam < 10000 := by
    norm_num [team_power, calculate_team_power, effective_power, power, food_power,
      mutation_multiplier_value, cexRepairTeam, commonTeam,
      pigAnimal, mouseAnimal, bugAnimal, appleFood]
  rw [enforce_mutate_reroll_under appleFood cexRepairTeam 10000 20000 cexStuckChoice
    (by norm_num) hp rfl ⟨rfl, rfl, rfl⟩]
  rfl

/-- C9 (counterexample): search exhaustion is NOT reported as a failure —
`adjust_enemy_team` terminates through its single ordinary return path
with a team whose power (282) lies far outside the requested window
`[10000, 20000]`, and the `battle` command then proceeds with that team
unconditionally; there is no failure channel in the return type. The
oracle re-draws each slot's current contents, which the samplers can
produce, so every one of the 350 + 200 bounded iterations leaves the team
unchanged. -/
theorem adjust_out_of_window_cex :
    adjust_enemy_team [appleFood] 10000 20000 cexRepairTeam
        (fun _ => cexStuckChoice) (fun _ => cexStuckChoice)
      = (cexRepairTeam, team_power cexRepairTeam)
      ∧ team_power cexRepairTeam < 10000
      ∧ valid_repair_choice smallAnimalCat [appleFood] [0] cexRepairTeam cexStuckChoice := by
  have ha := adjust_loop_a_fixed 10000 20000 cexStuckChoice cexRepairTeam
    cex_team_power_below cex_repair_fixed 350
  have hb := adjust_loop_b_fixed appleFood 10000 20000 cexStuckChoice cexRepairTeam
    cex_team_power_below cex_enforce_fixed 200
  refine ⟨?_, ?_, ⟨fun hne => absurd rfl hne, by decide, by decide⟩⟩
  · unfold adjust_enemy_team
    rw [ha]
    dsimp only
    rw [if_neg (by simp : ¬ (false = true))]
    have hsf : strongest_food [appleFood] = some appleFood := rfl
    rw [hsf]
    dsimp only
    rw [hb]
  · norm_num [team_power, calculate_team_power, effective_power, power, food_power,
      mutation_multiplier_value, cexRepairTeam, commonTeam,
      pigAnimal, mouseAnimal, bugAnimal, appleFood]

/-- Witness for `adjust_window_amended` at the stuck scenario: the
out-of-window return implies both loops exhausted their iterations. -/
theorem adjust_window_amended_witness :
    ¬ ((10000 : ℚ) ≤ (adjust_enemy_team [appleFood] 10000 20000 cexRepairTeam
          (fun _ => cexStuckChoice) (fun _ => cexStuckChoice)).2
        ∧ (adjust_enemy_team [appleFood] 10000 20000 cexRepairTeam
          (fun _ => cexStuckChoice) (fun _ => cexStuckChoice)).2 ≤ 20000)
      ∧ (adjust_loop_a 10000 20000 (fun _ => cexStuckChoice) 350 cexRepairTeam).2 = false
      ∧ ∀ sf, strongest_food [appleFood] = some sf →
          (adjust_loop_b sf 10000 20000 (fun _ => cexStuckChoice) 200
            (adjust_loop_a 10000 20000 (fun _ => cexStuckChoice) 350 cexRepairTeam).1).2
            = false := by
  have ha := adjust_loop_a_fixed 10000 20000 cexStuckChoice cexRepairTeam
    cex_team_power_below cex_repair_fixed 350
  have hb := adjust_loop_b_fixed appleFood 10000 20000 cexStuckChoice cexRepairTeam
    cex_team_power_below cex_enforce_fixed 200
  have hres : adjust_enemy_team [appleFood] 10000 20000 cexRepairTeam
      (fun _ => cexStuckChoice) (fun _ => cexStuckChoice)
      = (cexRepairTeam, team_power cexRepairTeam) := by
    unfold adjust_enemy_team
    rw [ha]
    dsimp only
    rw [if_neg (by simp : ¬ (false = true))]
    have hsf : strongest_food [appleFood] = some appleFood := rfl
    rw [hsf]
    dsimp only
    rw [hb]
  have hout : ¬ ((10000 : ℚ) ≤ (adjust_enemy_team [appleFood] 10000 20000 cexRepairTeam
      (fun _ => cexStuckChoice) (fun _ => cexStuckChoice)).2
      ∧ (adjust_enemy_team [appleFood] 10000 20000 cexRepairTeam
      (fun _ => cexStuckChoice) (fun _ => cexStuckChoice)).2 ≤ 20000) := by
    rw [hres]
    exact cex_team_power_below
  exact ⟨hout, (adjust_window_amended [appleFood] 10000 20000 cexRepairTeam
    (fun _ => cexStuckChoice) (fun _ => cexStuckChoice)).2 hout⟩
